import Mathlib

/-!
Verification of the askeladdk/aseprite decoder.

Shallow embedding of the Go sources into Lean:
* byte streams are `List Nat` (entries are byte values);
* Go slice expressions are modelled on the length of the list, and every
  read that would panic or error in Go yields `none`;
* `float64` arithmetic in the blend library is modelled by exact rational
  arithmetic; `color.Color` values are represented by the four 16-bit
  channels their `RGBA` method returns.
-/

set_option maxRecDepth 10000

/-- A `color.Color` seen through its `RGBA` method: four channels in `0..65535`. -/
structure RGBA16 where
  r : ℕ
  g : ℕ
  b : ℕ
  a : ℕ
  deriving DecidableEq

/-- The value `color.RGBA{r, g, b, a}` (8-bit channels) seen through `RGBA`,
which multiplies every channel by `0x101`. -/
def colorRGBA (r g b a : ℕ) : RGBA16 :=
  ⟨257 * r, 257 * g, 257 * b, 257 * a⟩

namespace blend

/-- Constant `max` of package blend: `float64(math.MaxUint16)`. -/
def maxval : ℚ := 65535

/-- Constant `mid` of package blend: `max / 2`. -/
def mid : ℚ := maxval / 2

/-- `clampToByte` from blend: clamp to `0..255`, converting by truncation. -/
def clampToByte (x : ℚ) : ℕ :=
  if x < 0 then 0
  else if x > 255 then 255
  else (⌊x⌋).toNat

/-- `rgbaf64` from blend: the four channels as `float64`. -/
structure rgbaf64 where
  r : ℚ
  g : ℚ
  b : ℚ
  a : ℚ

/-- `color2rgbaf64` from blend. -/
def color2rgbaf64 (c : RGBA16) : rgbaf64 :=
  ⟨c.r, c.g, c.b, c.a⟩

/-- `BlendFunc` from blend. -/
def BlendFunc : Type := RGBA16 → RGBA16 → RGBA16

/-- `blendPerChannel` from blend: apply a per-channel formula to r, g, b and
pass the destination alpha through, scaling each 16-bit result to a byte. -/
def blendPerChannel (dst src : RGBA16) (f : ℚ → ℚ → ℚ) : RGBA16 :=
  let d := color2rgbaf64 dst
  let s := color2rgbaf64 src
  colorRGBA
    (clampToByte (f d.r s.r / 256 + 1/2))
    (clampToByte (f d.g s.g / 256 + 1/2))
    (clampToByte (f d.b s.b / 256 + 1/2))
    (clampToByte (d.a / 256 + 1/2))

/-- `Normal` from blend. -/
def Normal : BlendFunc := fun _dst src => src

/-- `Darken` from blend. -/
def Darken : BlendFunc := fun dst src =>
  blendPerChannel dst src fun d s => min d s

/-- `Multiply` from blend. -/
def Multiply : BlendFunc := fun dst src =>
  blendPerChannel dst src fun d s => s * d / maxval

/-- `ColorBurn` from blend. -/
def ColorBurn : BlendFunc := fun dst src =>
  blendPerChannel dst src fun d s =>
    if s = 0 then s else max 0 (maxval - (maxval - d) * maxval / s)

/-- `Lighten` from blend. -/
def Lighten : BlendFunc := fun dst src =>
  blendPerChannel dst src fun d s => max d s

/-- `Screen` from blend. -/
def Screen : BlendFunc := fun dst src =>
  blendPerChannel dst src fun d s => s + d - s * d / maxval

/-- `ColorDodge` from blend. -/
def ColorDodge : BlendFunc := fun dst src =>
  blendPerChannel dst src fun d s =>
    if s = maxval then s else min maxval (d * maxval / (maxval - s))

/-- `Overlay` from blend. -/
def Overlay : BlendFunc := fun dst src =>
  blendPerChannel dst src fun d s =>
    if d < mid then 2 * s * d / maxval
    else maxval - 2 * (maxval - s) * (maxval - d) / maxval

/-- `SoftLight` from blend. -/
def SoftLight : BlendFunc := fun dst src =>
  blendPerChannel dst src fun d s =>
    (d / maxval) * (d + (2 * s / maxval) * (maxval - d))

/-- `HardLight` from blend. -/
def HardLight : BlendFunc := fun dst src =>
  blendPerChannel dst src fun d s =>
    if s > mid then d + (maxval - d) * ((s - mid) / mid) else d * s / mid

/-- `Addition` from blend. -/
def Addition : BlendFunc := fun dst src =>
  blendPerChannel dst src fun d s =>
    if s + d > maxval then maxval else s + d

/-- `Subtract` from blend. -/
def Subtract : BlendFunc := fun dst src =>
  blendPerChannel dst src fun d s =>
    if d - s < 0 then 0 else d - s

/-- `Divide` from blend. In Go a zero `s` produces an infinity or NaN through
float division; rational division by zero yields `0` instead. No claim in
this development depends on the color channels of Divide at `s = 0`. -/
def Divide : BlendFunc := fun dst src =>
  blendPerChannel dst src fun d s => d * maxval / s + 1

/-- `Difference` from blend. -/
def Difference : BlendFunc := fun dst src =>
  blendPerChannel dst src fun d s => |s - d|

/-- `Exclusion` from blend. -/
def Exclusion : BlendFunc := fun dst src =>
  blendPerChannel dst src fun d s => s + d - s * d / mid

/-- `hslf64` from blend. -/
structure hslf64 where
  h : ℚ
  s : ℚ
  l : ℚ

/-- `rgb2hsl` from blend: standard RGB to HSL over the 16-bit channels. -/
def rgb2hsl (c : RGBA16) : hslf64 :=
  let r : ℚ := (c.r : ℚ) / maxval
  let g : ℚ := (c.g : ℚ) / maxval
  let b : ℚ := (c.b : ℚ) / maxval
  let cmax := max (max r g) b
  let cmin := min (min r g) b
  let l := (cmax + cmin) / 2
  if cmax = cmin then
    ⟨0, 0, l⟩
  else
    let delta := cmax - cmin
    let s := if l > 1/2 then delta / (2 - cmax - cmin) else delta / (cmax + cmin)
    let h :=
      if cmax = r then (g - b) / delta + (if g < b then 6 else 0)
      else if cmax = g then (b - r) / delta + 2
      else (r - g) / delta + 4
    ⟨h / 6, s, l⟩

/-- `hue2rgb` from blend. -/
def hue2rgb (p q t : ℚ) : ℚ :=
  let t := if t < 0 then t + 1 else if t > 1 then t - 1 else t
  if t < 1/6 then p + (q - p) * 6 * t
  else if t < 1/2 then q
  else if t < 2/3 then p + (q - p) * (2/3 - t) * 6
  else p

/-- `hsl2rgb` from blend. The returned `color.RGBA` always carries the
fully opaque alpha `math.MaxUint8`. -/
def hsl2rgb (h s l : ℚ) : RGBA16 :=
  if s = 0 then
    colorRGBA
      (clampToByte (l * 255 + 1/2))
      (clampToByte (l * 255 + 1/2))
      (clampToByte (l * 255 + 1/2))
      255
  else
    let q := if l < 1/2 then l * (1 + s) else l + s - s * l
    let p := 2 * l - q
    colorRGBA
      (clampToByte (hue2rgb p q (h + 1/3) * 255 + 1/2))
      (clampToByte (hue2rgb p q h * 255 + 1/2))
      (clampToByte (hue2rgb p q (h - 1/3) * 255 + 1/2))
      255

/-- `Hue` from blend. -/
def Hue : BlendFunc := fun dst src =>
  let s := rgb2hsl src
  if s.s = 0 then dst
  else
    let d := rgb2hsl dst
    hsl2rgb s.h d.s d.l

/-- `Saturation` from blend. -/
def Saturation : BlendFunc := fun dst src =>
  let s := rgb2hsl src
  let d := rgb2hsl dst
  hsl2rgb d.h s.s d.l

/-- `Color` from blend. -/
def Color : BlendFunc := fun dst src =>
  let s := rgb2hsl src
  let d := rgb2hsl dst
  hsl2rgb s.h s.s d.l

/-- `Luminosity` from blend. -/
def Luminosity : BlendFunc := fun dst src =>
  let s := rgb2hsl src
  let d := rgb2hsl dst
  hsl2rgb d.h d.s s.l

/-- `Modes` from blend: the nineteen blend modes in table order. -/
def Modes : List BlendFunc :=
  [Normal, Multiply, Screen, Overlay, Darken, Lighten, ColorDodge, ColorBurn,
   HardLight, SoftLight, Difference, Exclusion, Hue, Saturation, Color,
   Luminosity, Addition, Subtract, Divide]

/-- The per-pixel body of `Blend` from blend: a source pixel with zero alpha
is written back verbatim, otherwise the mode is applied to the destination
and the source. -/
def blendAt (mode : BlendFunc) (dstcol srccol : RGBA16) : RGBA16 :=
  if srccol.a = 0 then srccol else mode dstcol srccol

end blend

/-- A palette entry: the `color.Color` values the parser stores. `black` is
`color.Black`, `transparent` is `color.Transparent`, `nrgba` is a
`color.NRGBA` value. -/
inductive GoColor where
  | black : GoColor
  | transparent : GoColor
  | nrgba (r g b a : ℕ) : GoColor
  deriving DecidableEq

/-- The `RGBA` method of a palette entry, from image/color: `color.Black`
is `Gray16{0}`, `color.Transparent` is `Alpha16{0}`, and `NRGBA` multiplies
its channels up to 16 bits and premultiplies by alpha. -/
def GoColor.rgba : GoColor → RGBA16
  | .black => ⟨0, 0, 0, 65535⟩
  | .transparent => ⟨0, 0, 0, 0⟩
  | .nrgba r g b a => ⟨257 * r * a / 255, 257 * g * a / 255, 257 * b * a / 255, 257 * a⟩

/-- An `image.Rectangle` with the nonnegative coordinates this decoder uses. -/
structure Rect where
  minX : ℕ
  minY : ℕ
  maxX : ℕ
  maxY : ℕ
  deriving DecidableEq

/-- `image.Rect`. -/
def mkRect (x0 y0 x1 y1 : ℕ) : Rect := ⟨x0, y0, x1, y1⟩

/-- The raster held by a `cel`: `none8` is the nil interface of the zero
value, the three constructors are the `image.Paletted`, `image.Gray16` and
`image.NRGBA` rasters built by the three `makeCelImage` functions. The
`serial` field models allocation identity: every raster object created by a
`makeCelImage` call carries a fresh serial number, so two cels with the same
serial share one raster object. -/
inductive CelImage where
  | none8 : CelImage
  | paletted (serial : ℕ) (bounds : Rect) (pix : List ℕ) (palette : List GoColor) : CelImage
  | gray16 (serial : ℕ) (bounds : Rect) (pix : List ℕ) : CelImage
  | nrgba32 (serial : ℕ) (bounds : Rect) (pix : List ℕ) : CelImage
  deriving DecidableEq

/-- `cel` from file.go: a raster, a uniform opacity mask and user data. -/
structure Cel where
  image : CelImage
  mask : ℕ
  data : List ℕ
  deriving DecidableEq

/-- The zero value of `cel`. -/
def Cel.empty : Cel := ⟨.none8, 0, []⟩

/-- `chunk` from file.go: a type tag and the payload bytes. -/
structure Chunk where
  typ : ℕ
  raw : List ℕ
  deriving DecidableEq

/-- `frame` from file.go: duration in ms, chunk records and per-layer cels. -/
structure FrameRec where
  dur : ℕ
  chunks : List Chunk
  cels : List Cel
  deriving DecidableEq

/-- `layer` from file.go: flags, blend mode, opacity, name and user data. -/
structure LayerRec where
  flags : ℕ
  blendMode : ℕ
  opacity : ℕ
  name : List ℕ
  data : List ℕ
  deriving DecidableEq

/-- `File` from file.go. The `makeCel` function pointer is replaced by
dispatch on `bpp` (it is assigned from `bpp` in `ReadFrom` and never
changed); `nextSerial` models raster allocation identity for `CelImage`. -/
structure FileRec where
  framew : ℕ
  frameh : ℕ
  flags : ℕ
  bpp : ℕ
  transparent : ℕ
  palette : List GoColor
  frames : List FrameRec
  layers : List LayerRec
  nextSerial : ℕ
  deriving DecidableEq

/-- `binary.LittleEndian.Uint16` at an offset. Callers check the length
bounds that Go enforces by panicking. -/
def readU16 (raw : List ℕ) (ofs : ℕ) : ℕ :=
  raw.getD ofs 0 + 256 * raw.getD (ofs + 1) 0

/-- `binary.LittleEndian.Uint32` at an offset. -/
def readU32 (raw : List ℕ) (ofs : ℕ) : ℕ :=
  raw.getD ofs 0 + 256 * raw.getD (ofs + 1) 0 +
    65536 * raw.getD (ofs + 2) 0 + 16777216 * raw.getD (ofs + 3) 0

/-- `chunk.Read` from file.go: length prefix, type tag, payload
`raw[6:chunkLen]`, rest `raw[chunkLen:]`. -/
def chunkRead (raw : List ℕ) : Option (Chunk × List ℕ) :=
  if raw.length < 6 then none
  else
    let chunkLen := readU32 raw 0
    let typ := readU16 raw 4
    if chunkLen < 6 ∨ raw.length < chunkLen then none
    else some (⟨typ, (raw.take chunkLen).drop 6⟩, raw.drop chunkLen)

/-- The chunk loop of `frame.Read`: read `n` chunk records in sequence. -/
def readChunks : ℕ → List ℕ → Option (List Chunk × List ℕ)
  | 0, raw => some ([], raw)
  | n + 1, raw => do
    let (c, rest) ← chunkRead raw
    let (cs, rest) ← readChunks n rest
    some (c :: cs, rest)

/-- `frame.Read` from file.go: magic check, chunk counts (the nonzero new
count supersedes the legacy count), duration, then the chunk records. -/
def frameRead (raw : List ℕ) : Option (FrameRec × List ℕ) :=
  if raw.length < 6 then none
  else if readU16 raw 4 ≠ 0xF1FA then none
  else if raw.length < 16 then none
  else
    let oldChunks := readU16 raw 6
    let durationMS := readU16 raw 8
    let newChunks := readU32 raw 12
    let nchunks := if newChunks = 0 then oldChunks else newChunks
    do
      let (cs, rest) ← readChunks nchunks (raw.drop 16)
      some (⟨durationMS, cs, []⟩, rest)

/-- The frame loop of `ReadFrom`: parse frame records until the buffer is
exhausted. Fuel bounds the recursion; every successful `frameRead` consumes
at least 16 bytes, so fuel equal to the buffer length never runs out on a
path on which the Go loop terminates normally. -/
def readFrames : ℕ → List ℕ → Option (List FrameRec)
  | _, [] => some []
  | 0, _ :: _ => none
  | fuel + 1, raw => do
    let (fr, rest) ← frameRead raw
    let frs ← readFrames fuel rest
    some (fr :: frs)

/-- `File.ReadFrom` from file.go: the 128-byte header (magic, square pixel
aspect, color depth in 8/16/32, frame size, flags, palette allocation with
the transparent entry cleared), then exactly `fileSize - 128` body bytes
split into frame records. -/
def fileReadFrom (input : List ℕ) : Option FileRec :=
  if input.length < 128 then none
  else if readU16 input 4 ≠ 0xA5E0 then none
  else if input.getD 34 0 ≠ input.getD 35 0 then none
  else
    let bpp := readU16 input 12
    let flags := readU16 input 14
    let framew := readU16 input 8
    let frameh := readU16 input 10
    let psize := readU16 input 32
    let transparent := input.getD 28 0
    if bpp ≠ 8 ∧ bpp ≠ 16 ∧ bpp ≠ 32 then none
    else if psize ≤ transparent then none
    else
      let palette := (List.replicate psize GoColor.black).set transparent .transparent
      let fileSize := readU32 input 0
      if fileSize < 128 then none
      else if input.length < fileSize then none
      else
        let body := (input.drop 128).take (fileSize - 128)
        (readFrames body.length body).bind fun frames =>
          some ⟨framew, frameh, flags, bpp, transparent, palette, frames, [], 0⟩

/-- `skipString` from parse.go: a 16-bit length prefix, then skip that many
bytes. -/
def skipString (raw : List ℕ) : Option (List ℕ) :=
  if raw.length < 2 then none
  else
    let n := readU16 raw 0
    if raw.length < 2 + n then none
    else some (raw.drop (2 + n))

/-- `parseColor` from parse.go: four bytes into a `color.NRGBA`. -/
def parseColor (raw : List ℕ) : Option GoColor :=
  if raw.length < 4 then none
  else some (.nrgba (raw.getD 0 0) (raw.getD 1 0) (raw.getD 2 0) (raw.getD 3 0))

/-- `parseUserData` from parse.go: a flags word, then an optional
length-prefixed byte blob and an optional color. -/
def parseUserData (raw : List ℕ) : Option (List ℕ × Option GoColor) :=
  if raw.length < 4 then none
  else
    let flags := readU32 raw 0
    let rest := raw.drop 4
    do
      let (data, rest) ←
        if flags &&& 1 ≠ 0 then
          if rest.length < 2 then none
          else
            let n := readU16 rest 0
            if rest.length < 2 + n then none
            else some (((rest.drop 2).take n : List ℕ), rest.drop (2 + n))
        else some (([] : List ℕ), rest)
      let col ←
        if flags &&& 2 ≠ 0 then do
          let c ← parseColor rest
          some (some c)
        else some (Option.none (α := GoColor))
      some (data, col)

/-- The entry loop of `parseChunk2019`: write `k` RGBA entries starting at
`idx`, each optionally followed by a name string to skip. -/
def writePal2019 : ℕ → ℕ → List GoColor → List ℕ → Option (List GoColor)
  | 0, _, pal, _ => some pal
  | k + 1, idx, pal, rest =>
    if rest.length < 6 then none
    else
      let flags := readU16 rest 0
      if pal.length ≤ idx then none
      else
        let pal := pal.set idx (.nrgba (rest.getD 2 0) (rest.getD 3 0) (rest.getD 4 0) (rest.getD 5 0))
        let rest := rest.drop 6
        do
          let rest ← if flags &&& 1 ≠ 0 then skipString rest else some rest
          writePal2019 k (idx + 1) pal rest

/-- `parseChunk2019` from parse.go: the new-format palette chunk. -/
def parseChunk2019 (pal : List GoColor) (raw : List ℕ) : Option (List GoColor) :=
  if raw.length < 20 then none
  else
    let entries := readU32 raw 0
    let lo := readU32 raw 4
    writePal2019 entries lo pal (raw.drop 20)

/-- The inner write loop shared by the two legacy palette chunks: write up
to `n` entries built by `mk` from consecutive byte triples, stopping early
when the palette is exhausted. -/
def writePalOld (mk : ℕ → ℕ → ℕ → GoColor) :
    ℕ → ℕ → List GoColor → List ℕ → Option (List GoColor × ℕ × List ℕ)
  | 0, idx, pal, rest => some (pal, idx, rest)
  | n + 1, idx, pal, rest =>
    if pal.length ≤ idx then some (pal, idx, rest)
    else if rest.length < 3 then none
    else
      writePalOld mk n (idx + 1)
        (pal.set idx (mk (rest.getD 0 0) (rest.getD 1 0) (rest.getD 2 0)))
        (rest.drop 3)

/-- The packet loop shared by the two legacy palette chunks: each packet
skips `raw[0]` entries and writes `raw[1]` entries, where a zero write
count means 256. -/
def palPackets (mk : ℕ → ℕ → ℕ → GoColor) :
    ℕ → ℕ → List GoColor → List ℕ → Option (List GoColor)
  | 0, _, pal, _ => some pal
  | p + 1, idx, pal, rest =>
    if rest.length < 2 then none
    else
      let skip := rest.getD 0 0
      let n0 := rest.getD 1 0
      let n := if n0 = 0 then 256 else n0
      do
        let (pal, idx, rest) ← writePalOld mk n (idx + skip) pal (rest.drop 2)
        palPackets mk p idx pal rest

/-- The entry written by `parseChunk0011`: byte arithmetic multiplies each
6-bit channel by 4 modulo 256, with full alpha. -/
def mkColor0011 (r g b : ℕ) : GoColor :=
  .nrgba (r * 4 % 256) (g * 4 % 256) (b * 4 % 256) 255

/-- The entry written by `parseChunk0004`: plain RGB with full alpha. -/
def mkColor0004 (r g b : ℕ) : GoColor :=
  .nrgba r g b 255

/-- `parseChunk0011` from parse.go: the legacy 6-bit palette chunk. -/
def parseChunk0011 (pal : List GoColor) (raw : List ℕ) : Option (List GoColor) :=
  if raw.length < 2 then none
  else palPackets mkColor0011 (readU16 raw 0) 0 pal (raw.drop 2)

/-- `parseChunk0004` from parse.go: the legacy 8-bit palette chunk. -/
def parseChunk0004 (pal : List GoColor) (raw : List ℕ) : Option (List GoColor) :=
  if raw.length < 2 then none
  else palPackets mkColor0004 (readU16 raw 0) 0 pal (raw.drop 2)

/-- The chunk scan of `initPalette`: stop at the first new-format palette
chunk, otherwise remember the last legacy chunk of either kind. -/
def scanPaletteChunks :
    List Chunk → Option (List ℕ) → Option (List ℕ) →
    Option (List ℕ) × Option (List ℕ) × Option (List ℕ)
  | [], c4, c11 => (none, c4, c11)
  | ch :: rest, c4, c11 =>
    if ch.typ = 0x2019 then (some ch.raw, c4, c11)
    else
      scanPaletteChunks rest
        (if ch.typ = 0x0004 then some ch.raw else c4)
        (if ch.typ = 0x0011 then some ch.raw else c11)

/-- `initPalette` from parse.go: prefer the new-format chunk in frame 0,
fall back to legacy chunk 0x0004 and then 0x0011, and finally force the
transparent entry when header flag bit 0 is set. -/
def initPalette (f : FileRec) : Option FileRec :=
  match f.frames with
  | [] => none
  | fr0 :: _ =>
    let scanned := scanPaletteChunks fr0.chunks none none
    let pal0 :=
      match scanned.1 with
      | some raw => parseChunk2019 f.palette raw
      | none =>
        match scanned.2.1 with
        | some raw => parseChunk0004 f.palette raw
        | none =>
          match scanned.2.2 with
          | some raw => parseChunk0011 f.palette raw
          | none => some f.palette
    pal0.bind fun pal =>
      if f.flags &&& 1 ≠ 0 then
        if f.transparent < pal.length then
          some { f with palette := pal.set f.transparent .transparent }
        else none
      else some { f with palette := pal }

/-- `Layer.Parse` from file.go: rejects tile-map layers, then reads flags,
blend mode, opacity and the name bytes. -/
def layerParse (raw : List ℕ) : Option LayerRec :=
  if raw.length < 4 then none
  else if readU16 raw 2 = 2 then none
  else if raw.length < 16 then none
  else some ⟨readU16 raw 0, readU16 raw 10, raw.getD 12 0, raw.drop 16, []⟩

/-- The chunk loop of `initLayers`: collect every 0x2004 chunk as a layer,
attaching the payload of an immediately following user-data chunk. -/
def collectLayers : List Chunk → Option (List LayerRec)
  | [] => some []
  | ch :: rest =>
    if ch.typ = 0x2004 then do
      let l ← layerParse ch.raw
      let l ←
        match rest with
        | ch2 :: _ =>
          if ch2.typ = 0x2020 then do
            let (d, _) ← parseUserData ch2.raw
            pure { l with data := d }
          else pure l
        | [] => pure l
      let ls ← collectLayers rest
      some (l :: ls)
    else collectLayers rest

/-- `initLayers` from parse.go: build the layer table from frame 0 and
resize every frame's cel list to the layer count. -/
def initLayers (f : FileRec) : Option FileRec :=
  match f.frames with
  | [] => none
  | fr0 :: _ =>
    (collectLayers fr0.chunks).bind fun ls =>
      some { f with
        layers := ls
        frames := f.frames.map fun fr => { fr with cels := List.replicate ls.length Cel.empty } }

/-- `makeCelImage8` from file.go: an `image.Paletted` raster over the
shared palette, with a uniform opacity mask. The pixel bytes are stored
unchanged. -/
def makeCelImage8 (f : FileRec) (serial : ℕ) (bounds : Rect) (opacity : ℕ) (pix : List ℕ) : Cel :=
  ⟨.paletted serial bounds pix f.palette, opacity, []⟩

/-- `makeCelImage16` from file.go: an `image.Gray16` raster. -/
def makeCelImage16 (_f : FileRec) (serial : ℕ) (bounds : Rect) (opacity : ℕ) (pix : List ℕ) : Cel :=
  ⟨.gray16 serial bounds pix, opacity, []⟩

/-- `makeCelImage32` from file.go: an `image.NRGBA` raster. -/
def makeCelImage32 (_f : FileRec) (serial : ℕ) (bounds : Rect) (opacity : ℕ) (pix : List ℕ) : Cel :=
  ⟨.nrgba32 serial bounds pix, opacity, []⟩

/-- The `makeCel` function pointer of `File`, assigned from the color depth
in `ReadFrom` (8, 16 or 32). -/
def makeCel (f : FileRec) (serial : ℕ) (bounds : Rect) (opacity : ℕ) (pix : List ℕ) : Cel :=
  match f.bpp with
  | 8 => makeCelImage8 f serial bounds opacity pix
  | 16 => makeCelImage16 f serial bounds opacity pix
  | _ => makeCelImage32 f serial bounds opacity pix

/-- Store a cel into `f.frames[frameIdx].cels[layer]`, failing where the Go
index expressions would panic. -/
def storeCel (f : FileRec) (frameIdx layer : ℕ) (c : Cel) : Option FileRec :=
  if h : f.frames.length ≤ frameIdx then none
  else
    let fr := f.frames.get ⟨frameIdx, by omega⟩
    if fr.cels.length ≤ layer then none
    else some { f with frames := f.frames.set frameIdx { fr with cels := fr.cels.set layer c } }

/-- `parseChunk2005` from parse.go: the cel chunk. Returns the updated file
and the frame/layer slot of the stored cel, or `none` in the second
component when an invisible or reference layer short-circuits to no cel.
`zlib` stands for the external zlib decompressor used by compressed cels. -/
def parseChunk2005 (zlib : List ℕ → Option (List ℕ)) (f : FileRec) (frameIdx : ℕ)
    (raw : List ℕ) : Option (FileRec × Option (ℕ × ℕ)) :=
  if raw.length < 9 then none
  else
    let layer := readU16 raw 0
    let xpos := readU16 raw 2
    let ypos := readU16 raw 4
    let opacity := raw.getD 6 0
    let celtype := readU16 raw 7
    if h : f.layers.length ≤ layer then none
    else
      let l := f.layers.get ⟨layer, by omega⟩
      if l.flags &&& 1 = 0 then some (f, none)
      else if l.flags &&& 64 ≠ 0 then some (f, none)
      else if raw.length < 16 then none
      else
        let rest := raw.drop 16
        let opacity := opacity * l.opacity / 255
        match celtype with
        | 0 =>
          if rest.length < 4 then none
          else
            let width := readU16 rest 0
            let height := readU16 rest 2
            let pix := rest.drop 4
            let bounds := mkRect xpos ypos (xpos + width) (ypos + height)
            let c := makeCel f f.nextSerial bounds opacity pix
            (storeCel { f with nextSerial := f.nextSerial + 1 } frameIdx layer c).bind
              fun f2 => some (f2, some (frameIdx, layer))
        | 1 =>
          if rest.length < 2 then none
          else
            let srcFrame := readU16 rest 0
            if hs : f.frames.length ≤ srcFrame then none
            else
              let srcFr := f.frames.get ⟨srcFrame, by omega⟩
              if hc : srcFr.cels.length ≤ layer then none
              else
                let srcCel := srcFr.cels.get ⟨layer, by omega⟩
                (storeCel f frameIdx layer srcCel).bind
                  fun f2 => some (f2, some (frameIdx, layer))
        | 2 =>
          if rest.length < 4 then none
          else
            let width := readU16 rest 0
            let height := readU16 rest 2
            (zlib (rest.drop 4)).bind fun pix =>
              let bounds := mkRect xpos ypos (xpos + width) (ypos + height)
              let c := makeCel f f.nextSerial bounds opacity pix
              (storeCel { f with nextSerial := f.nextSerial + 1 } frameIdx layer c).bind
                fun f2 => some (f2, some (frameIdx, layer))
        | _ => none

/-- Attach user data to the cel at a slot, failing where Go would panic. -/
def setCelData (f : FileRec) (frameIdx layer : ℕ) (d : List ℕ) : Option FileRec :=
  if h : f.frames.length ≤ frameIdx then none
  else
    let fr := f.frames.get ⟨frameIdx, by omega⟩
    if hc : fr.cels.length ≤ layer then none
    else
      let c := fr.cels.get ⟨layer, by omega⟩
      some { f with frames := f.frames.set frameIdx { fr with cels := fr.cels.set layer { c with data := d } } }

/-- The chunk loop of `initCels` for one frame: decode every 0x2005 chunk,
attaching the payload of an immediately following user-data chunk to a
stored cel. -/
def initCelsChunks (zlib : List ℕ → Option (List ℕ)) (f : FileRec) (frameIdx : ℕ) :
    List Chunk → Option FileRec
  | [] => some f
  | ch :: rest =>
    if ch.typ = 0x2005 then
      (parseChunk2005 zlib f frameIdx ch.raw).bind fun fs =>
        (match fs.2, rest with
          | some (fi, li), ch2 :: _ =>
            if ch2.typ = 0x2020 then
              (parseUserData ch2.raw).bind fun du => setCelData fs.1 fi li du.1
            else some fs.1
          | _, _ => some fs.1).bind fun f2 =>
        initCelsChunks zlib f2 frameIdx rest
    else initCelsChunks zlib f frameIdx rest

/-- The frame loop of `initCels`. -/
def initCelsFrames (zlib : List ℕ → Option (List ℕ)) : ℕ → ℕ → FileRec → Option FileRec
  | _, 0, f => some f
  | i, k + 1, f =>
    (initCelsChunks zlib f i (f.frames.getD i ⟨0, [], []⟩).chunks).bind fun f2 =>
      initCelsFrames zlib (i + 1) k f2

/-- `initCels` from parse.go. -/
def initCels (zlib : List ℕ → Option (List ℕ)) (f : FileRec) : Option FileRec :=
  initCelsFrames zlib 0 f.frames.length f

/-- Fuel recursion computing the ceiling of the base-2 logarithm; the fuel
makes the definition structurally recursive and the first argument of
`ceilLog2` supplies enough of it. -/
def ceilLog2Aux : ℕ → ℕ → ℕ
  | 0, _ => 0
  | fuel + 1, n => if n ≤ 1 then 0 else ceilLog2Aux fuel ((n + 1) / 2) + 1

/-- The ceiling of the base-2 logarithm; equal to `Nat.clog 2` by
`ceilLog2_eq_clog` below. -/
def ceilLog2 (n : ℕ) : ℕ := ceilLog2Aux n n

/-- `factorPowerOfTwo` from file.go with `x = ceil(log2 n)`. Go computes
`x` as `int(math.Ceil(math.Log2(float64(n))))`, which equals
`ceilLog2 n` for every `n` of at most 16 bits once `n ≥ 1`; at `n = 0`
the Go expression panics on a negative shift, so the function is only used
at `n ≥ 1`. -/
def factorPowerOfTwo (n : ℕ) : ℕ × ℕ :=
  let x := ceilLog2 n
  (2 ^ (x - x / 2), 2 ^ (x / 2))

/-- `makeAtlasFrames` from file.go: the grid factors, swapped when the
frame is wider than tall, the atlas rectangle, and one frame-sized cell per
frame placed row-major. -/
def makeAtlasFrames (nframes framew frameh : ℕ) : Rect × List Rect :=
  let fw := if framew > frameh then (factorPowerOfTwo nframes).2 else (factorPowerOfTwo nframes).1
  let fh := if framew > frameh then (factorPowerOfTwo nframes).1 else (factorPowerOfTwo nframes).2
  (mkRect 0 0 (fw * framew) (fh * frameh),
   (List.range nframes).map fun i =>
     mkRect (i % fw * framew) (i / fw * frameh) ((i % fw + 1) * framew) ((i / fw + 1) * frameh))

/-- The color model of an `image.Config` or a built atlas. -/
inductive ColorModelTag where
  | rgba : ColorModelTag
  | gray16 : ColorModelTag
  | palette (pal : List GoColor) : ColorModelTag
  deriving DecidableEq

/-- `image.Config`: color model and dimensions. -/
structure ImageConfig where
  model : ColorModelTag
  width : ℕ
  height : ℕ
  deriving DecidableEq

/-- `DecodeConfig` from decode.go: the header-only probe. It reads exactly
14 bytes, checks only the container magic, and computes the atlas
dimensions from the declared frame count and frame size. -/
def decodeConfig (input : List ℕ) : Option ImageConfig :=
  if input.length < 14 then none
  else if readU16 input 4 ≠ 0xA5E0 then none
  else
    let nframes := readU16 input 6
    let framew := readU16 input 8
    let frameh := readU16 input 10
    let bpp := readU16 input 12
    let colorModel := if bpp = 16 then ColorModelTag.gray16 else ColorModelTag.rgba
    let fw := if framew > frameh then (factorPowerOfTwo nframes).2 else (factorPowerOfTwo nframes).1
    let fh := if framew > frameh then (factorPowerOfTwo nframes).1 else (factorPowerOfTwo nframes).2
    some ⟨colorModel, framew * fw, frameh * fh⟩

/-- The color model and dimensions of the atlas built by `buildAtlas` after
the full decode pipeline of `Aseprite.readFrom`: `ReadFrom`, `initPalette`,
`initLayers`, `initCels`, then `makeAtlasFrames` over the parsed frames,
with the atlas raster chosen by color depth. -/
def decodeAtlasConfig (zlib : List ℕ → Option (List ℕ)) (input : List ℕ) : Option ImageConfig :=
  (fileReadFrom input).bind fun f =>
  (initPalette f).bind fun f =>
  (initLayers f).bind fun f =>
  (initCels zlib f).bind fun f =>
  some ⟨(match f.bpp with
         | 8 => ColorModelTag.palette f.palette
         | 16 => ColorModelTag.gray16
         | _ => ColorModelTag.rgba),
        (makeAtlasFrames f.frames.length f.framew f.frameh).1.maxX,
        (makeAtlasFrames f.frames.length f.framew f.frameh).1.maxY⟩

/-- Reading one pixel of a paletted cel during compositing, as
`image.Paletted.At` of the Go standard library does: index the palette
table by the pixel byte. `none` is the out-of-range panic. -/
def palettedAt (c : CelImage) (i : ℕ) : Option GoColor :=
  match c with
  | .paletted _ _ pix pal => pal.get? (pix.getD i 0)
  | _ => none

/-- A trivial stand-in for the external zlib decompressor; the inputs fed
to the pipeline in the concrete theorems below contain no compressed cels,
so it is never invoked. -/
def noZlib : List ℕ → Option (List ℕ) := fun _ => none

/-- A file state with one invisible layer (flags 0) and one frame. -/
def fileC8 : FileRec :=
  ⟨1, 1, 0, 32, 0, [], [⟨0, [], []⟩], [⟨0, 0, 255, [], []⟩], 0⟩

/-- A cel chunk payload targeting layer 0. -/
def rawC8 : List ℕ := List.replicate 9 0

/-- A cel living on frame 0, layer 0 of `fileC7`, with raster serial 7. -/
def celC7 : Cel := ⟨.paletted 7 (mkRect 0 0 1 1) [5] [], 255, []⟩

/-- A file state with one visible layer and two frames, frame 0 already
holding `celC7`. -/
def fileC7 : FileRec :=
  ⟨1, 1, 0, 8, 0, [], [⟨0, [], [celC7]⟩, ⟨0, [], [Cel.empty]⟩], [⟨1, 0, 255, [], []⟩], 8⟩

/-- A linked-cel chunk payload: layer 0, cel type 1, source frame 0. -/
def rawC7 : List ℕ := [0, 0, 0, 0, 0, 0, 255, 1, 0] ++ List.replicate 7 0 ++ [0, 0]

/-- A file state whose palette has five entries. -/
def fileC3 : FileRec :=
  ⟨1, 1, 0, 8, 0, List.replicate 5 .black, [], [], 0⟩

/-- A 144-byte container whose header declares 2 frames while the body
holds a single frame record: fileSize 144, magic, frames 2, frame size
2 by 1, depth 8, flags 0, transparent 0, palette size 1, square aspect,
then one 16-byte empty frame record. -/
def inputMismatch : List ℕ :=
  [144, 0, 0, 0, 224, 165, 2, 0, 2, 0, 1, 0, 8, 0, 0, 0] ++ List.replicate 12 0 ++
  [0] ++ List.replicate 3 0 ++ [1, 0] ++ [1, 1] ++ List.replicate 92 0 ++
  [16, 0, 0, 0, 250, 241, 0, 0, 0, 0, 0, 0, 0, 0, 0, 0]

/-- A 144-byte container whose header count matches its body: 1 declared
frame, one frame record, 32-bit depth, frame size 2 by 1. -/
def inputAgree : List ℕ :=
  [144, 0, 0, 0, 224, 165, 1, 0, 2, 0, 1, 0, 32, 0, 0, 0] ++ List.replicate 12 0 ++
  [0] ++ List.replicate 3 0 ++ [1, 0] ++ [1, 1] ++ List.replicate 92 0 ++
  [16, 0, 0, 0, 250, 241, 0, 0, 0, 0, 0, 0, 0, 0, 0, 0]

/-- The file record parsed from `inputAgree`. -/
def fileAgree : FileRec :=
  ⟨2, 1, 0, 32, 0, [.transparent], [⟨0, [], []⟩], [], 0⟩

/-- A 176-byte container with header flags 0 (transparent flag clear),
8-bit depth, a one-entry palette with transparent index 0, and one frame
carrying a new-format palette chunk that sets entry 0 to opaque red. -/
def inputPal2019 : List ℕ :=
  [176, 0, 0, 0, 224, 165, 1, 0, 1, 0, 1, 0, 8, 0, 0, 0] ++ List.replicate 12 0 ++
  [0] ++ List.replicate 3 0 ++ [1, 0] ++ [1, 1] ++ List.replicate 92 0 ++
  [48, 0, 0, 0, 250, 241, 1, 0, 0, 0, 0, 0, 0, 0, 0, 0] ++
  [32, 0, 0, 0, 25, 32] ++ [1, 0, 0, 0, 0, 0, 0, 0] ++ List.replicate 12 0 ++
  [0, 0, 255, 0, 0, 255]

/-- A 128-byte header-only container with a color depth of 7, which the
full decode rejects, square aspect and matching magic. -/
def inputBadDepth : List ℕ :=
  [0, 0, 0, 0, 224, 165, 1, 0, 1, 0, 1, 0, 7, 0, 0, 0] ++ List.replicate 12 0 ++
  [0] ++ List.replicate 3 0 ++ [1, 0] ++ [1, 1] ++ List.replicate 92 0

/-- A file state with the transparent flag set, a one-entry palette and an
empty frame 0. -/
def fileC2w : FileRec :=
  ⟨1, 1, 1, 8, 0, [.black], [⟨0, [], []⟩], [], 0⟩

/-- A three-entry palette of opaque black. -/
def palC9 : List GoColor := List.replicate 3 .black

/-- A legacy 0x0011 palette payload: one packet, skip 1, write count 0
(meaning 256), then two byte triples. -/
def rawC9 : List ℕ := [1, 0, 1, 0] ++ [1, 2, 3, 4, 5, 6]

/-- The alpha of every color built by `hsl2rgb` is the fully opaque 65535. -/
theorem hsl2rgb_alpha (h s l : ℚ) : (blend.hsl2rgb h s l).a = 65535 := by
  unfold blend.hsl2rgb
  split <;> rfl

/-- C4: for every blend mode in the mode table and every pixel whose source
alpha is exactly zero, the blended output for that pixel is the source
pixel verbatim; the blend formula is not applied to it. -/
theorem blend_zero_alpha_source_verbatim (i : ℕ) (h : i < blend.Modes.length)
    (d s : RGBA16) (hs : s.a = 0) :
    blend.blendAt (blend.Modes.get ⟨i, h⟩) d s = s := by
  simp [blend.blendAt, hs]

theorem blend_zero_alpha_source_verbatim_witness :
    3 < blend.Modes.length ∧ (RGBA16.mk 9 9 9 0).a = 0 ∧
    blend.blendAt (blend.Modes.get ⟨3, by decide⟩) ⟨1, 2, 3, 4⟩ ⟨9, 9, 9, 0⟩ = ⟨9, 9, 9, 0⟩ :=
  ⟨by decide, rfl, blend_zero_alpha_source_verbatim 3 (by decide) ⟨1, 2, 3, 4⟩ ⟨9, 9, 9, 0⟩ rfl⟩

/-- C5 counterexample: the claim fails already for mode 0 (Normal), which
returns the source pixel verbatim, so its output alpha is the source alpha,
not the destination alpha. -/
theorem blend_alpha_claim_false :
    ¬ ((blend.Modes.get ⟨0, by decide⟩) ⟨0, 0, 0, 0⟩ ⟨1, 1, 1, 65535⟩).a =
      (RGBA16.mk 0 0 0 0).a := by decide

/-- C5 amended: Normal returns the source verbatim; the fourteen
per-channel arithmetic modes (indices 1 to 11, 16 to 18) output the
destination alpha converted from 16 bits to a byte by floor of
`a/256 + 1/2` clamped; Saturation, Color and Luminosity (13 to 15) output
the fully opaque alpha 65535; Hue (12) returns the destination verbatim
when the source saturation is zero and otherwise outputs alpha 65535. -/
theorem blend_modes_alpha (d s : RGBA16) :
    blend.Modes.length = 19 ∧
    (blend.Modes.get ⟨0, by decide⟩) d s = s ∧
    (∀ i, ∀ h : i < 19, 1 ≤ i → i ≤ 11 →
      ((blend.Modes.get ⟨i, h⟩) d s).a =
        257 * blend.clampToByte ((d.a : ℚ) / 256 + 1/2)) ∧
    (∀ i, ∀ h : i < 19, 16 ≤ i →
      ((blend.Modes.get ⟨i, h⟩) d s).a =
        257 * blend.clampToByte ((d.a : ℚ) / 256 + 1/2)) ∧
    (∀ i, ∀ h : i < 19, 13 ≤ i → i ≤ 15 →
      ((blend.Modes.get ⟨i, h⟩) d s).a = 65535) ∧
    ((blend.rgb2hsl s).s = 0 → (blend.Modes.get ⟨12, by decide⟩) d s = d) ∧
    ((blend.rgb2hsl s).s ≠ 0 → ((blend.Modes.get ⟨12, by decide⟩) d s).a = 65535) := by
  refine ⟨rfl, rfl, ?_, ?_, ?_, ?_, ?_⟩
  · intro i h h1 h2
    interval_cases i <;> rfl
  · intro i h h1
    interval_cases i <;> rfl
  · intro i h h1 h2
    interval_cases i <;>
      simp only [blend.Modes, blend.Saturation, blend.Color, blend.Luminosity,
        List.get] <;>
      exact hsl2rgb_alpha ..
  · intro hz
    show blend.Hue d s = d
    simp [blend.Hue, hz]
  · intro hz
    show (blend.Hue d s).a = 65535
    simp only [blend.Hue]
    rw [if_neg hz]
    exact hsl2rgb_alpha ..

theorem blend_modes_alpha_witness :
    ((blend.Modes.get ⟨5, by decide⟩) ⟨1, 2, 3, 40000⟩ ⟨7, 7, 7, 9⟩).a =
      257 * blend.clampToByte ((40000 : ℚ) / 256 + 1/2) ∧
    ((blend.Modes.get ⟨14, by decide⟩) ⟨1, 2, 3, 40000⟩ ⟨7, 7, 7, 9⟩).a = 65535 :=
  ⟨(blend_modes_alpha ⟨1, 2, 3, 40000⟩ ⟨7, 7, 7, 9⟩).2.2.1 5 (by decide) (by decide) (by decide),
   (blend_modes_alpha ⟨1, 2, 3, 40000⟩ ⟨7, 7, 7, 9⟩).2.2.2.2.1 14 (by decide) (by decide) (by decide)⟩

/-- The fuel recursion computes `Nat.clog 2` once the fuel dominates the
argument. -/
theorem ceilLog2Aux_eq_clog (fuel : ℕ) : ∀ n, n ≤ fuel → ceilLog2Aux fuel n = Nat.clog 2 n := by
  induction fuel with
  | zero =>
    intro n h
    interval_cases n
    simp [ceilLog2Aux]
  | succ fuel ih =>
    intro n h
    unfold ceilLog2Aux
    by_cases h1 : n ≤ 1
    · rw [if_pos h1, Nat.clog_of_right_le_one h1]
    · rw [if_neg h1, ih ((n + 1) / 2) (by omega),
        Nat.clog_of_two_le (b := 2) (n := n) (by norm_num) (by omega)]
      norm_num

/-- `ceilLog2` is the ceiling of the base-2 logarithm. -/
theorem ceilLog2_eq_clog (n : ℕ) : ceilLog2 n = Nat.clog 2 n :=
  ceilLog2Aux_eq_clog n n le_rfl

/-- C6: for every frame count n at least 1, with x the ceiling of log2 n,
the grid factors are a = 2^(x - x/2) and b = 2^(x/2) with a at least b and
a times b at least n; the listed concrete values hold; and the factors are
swapped exactly when the frame width exceeds the frame height, the atlas
being the grid of frame-sized cells. -/
theorem factorPowerOfTwo_spec :
    (∀ n : ℕ, 1 ≤ n →
      factorPowerOfTwo n =
        (2 ^ (Nat.clog 2 n - Nat.clog 2 n / 2), 2 ^ (Nat.clog 2 n / 2)) ∧
      (factorPowerOfTwo n).2 ≤ (factorPowerOfTwo n).1 ∧
      n ≤ (factorPowerOfTwo n).1 * (factorPowerOfTwo n).2) ∧
    factorPowerOfTwo 1 = (1, 1) ∧
    factorPowerOfTwo 2 = (2, 1) ∧
    factorPowerOfTwo 4 = (2, 2) ∧
    factorPowerOfTwo 10 = (4, 4) ∧
    factorPowerOfTwo 16 = (4, 4) ∧
    (∀ n fw fh : ℕ, fh < fw →
      (makeAtlasFrames n fw fh).1 =
        mkRect 0 0 ((factorPowerOfTwo n).2 * fw) ((factorPowerOfTwo n).1 * fh)) ∧
    (∀ n fw fh : ℕ, fw ≤ fh →
      (makeAtlasFrames n fw fh).1 =
        mkRect 0 0 ((factorPowerOfTwo n).1 * fw) ((factorPowerOfTwo n).2 * fh)) := by
  refine ⟨?_, by decide, by decide, by decide, by decide, by decide, ?_, ?_⟩
  · intro n hn
    refine ⟨by simp [factorPowerOfTwo, ceilLog2_eq_clog], ?_, ?_⟩
    · exact Nat.pow_le_pow_right (by omega) (by omega)
    · have hx : (factorPowerOfTwo n).1 * (factorPowerOfTwo n).2 = 2 ^ Nat.clog 2 n := by
        simp only [factorPowerOfTwo, ceilLog2_eq_clog]
        rw [← pow_add]
        congr 1
        omega
      rw [hx]
      exact Nat.le_pow_clog (by omega) n
  · intro n fw fh hwh
    simp only [makeAtlasFrames, factorPowerOfTwo]
    rw [if_pos (by omega), if_pos (by omega)]
  · intro n fw fh hwh
    simp only [makeAtlasFrames, factorPowerOfTwo]
    rw [if_neg (by omega), if_neg (by omega)]

theorem factorPowerOfTwo_spec_witness :
    (10 : ℕ) ≤ (factorPowerOfTwo 10).1 * (factorPowerOfTwo 10).2 ∧
    (makeAtlasFrames 3 4 2).1 =
      mkRect 0 0 ((factorPowerOfTwo 3).2 * 4) ((factorPowerOfTwo 3).1 * 2) :=
  ⟨(factorPowerOfTwo_spec.1 10 (by decide)).2.2,
   factorPowerOfTwo_spec.2.2.2.2.2.2.1 3 4 2 (by decide)⟩

/-- C8: a cel chunk whose target layer is invisible (flag bit 0 clear) or a
reference layer (flag bit 6 set) stores nothing: the file state is returned
unchanged, with no cel slot and no error. -/
theorem cel_skip_invisible_or_reference (zlib : List ℕ → Option (List ℕ))
    (f : FileRec) (frameIdx : ℕ) (raw : List ℕ)
    (hlen : 9 ≤ raw.length) (hl : readU16 raw 0 < f.layers.length)
    (hflag : (f.layers.get ⟨readU16 raw 0, hl⟩).flags &&& 1 = 0 ∨
             (f.layers.get ⟨readU16 raw 0, hl⟩).flags &&& 64 ≠ 0) :
    parseChunk2005 zlib f frameIdx raw = some (f, none) := by
  simp only [parseChunk2005]
  rw [if_neg (by omega), dif_neg (by omega)]
  rcases eq_or_ne ((f.layers.get ⟨readU16 raw 0, hl⟩).flags &&& 1) 0 with h1 | h1
  · rw [if_pos h1]
  · rcases hflag with h | h
    · exact absurd h h1
    · rw [if_neg h1, if_pos h]

theorem cel_skip_invisible_or_reference_witness :
    parseChunk2005 noZlib fileC8 0 rawC8 = some (fileC8, none) :=
  cel_skip_invisible_or_reference noZlib fileC8 0 rawC8 (by decide) (by decide)
    (Or.inl (by decide))

/-- C7: decoding a linked cel (type 1) stores in the current slot exactly
the cel record of the referenced frame on the same layer, raster serial
included, so the raster object is shared rather than copied; the file is
otherwise unchanged and `nextSerial` in particular, so no raster is
allocated; and the outcome depends only on the first 18 bytes of the chunk
payload, so no pixel bytes are read. -/
theorem linked_cel_shares_source (zlib : List ℕ → Option (List ℕ))
    (f : FileRec) (frameIdx : ℕ) (raw : List ℕ)
    (hlen : 18 ≤ raw.length)
    (hl : readU16 raw 0 < f.layers.length)
    (hvis : (f.layers.getD (readU16 raw 0) ⟨0, 0, 0, [], []⟩).flags &&& 1 ≠ 0)
    (href : (f.layers.getD (readU16 raw 0) ⟨0, 0, 0, [], []⟩).flags &&& 64 = 0)
    (htyp : readU16 raw 7 = 1)
    (hsrc : readU16 (raw.drop 16) 0 < f.frames.length)
    (hsc : readU16 raw 0 < (f.frames.getD (readU16 (raw.drop 16) 0) ⟨0, [], []⟩).cels.length)
    (hfi : frameIdx < f.frames.length)
    (hfc : readU16 raw 0 < (f.frames.getD frameIdx ⟨0, [], []⟩).cels.length) :
    parseChunk2005 zlib f frameIdx raw =
      some ({ f with frames := f.frames.set frameIdx
                       { f.frames.getD frameIdx ⟨0, [], []⟩ with
                         cels := (f.frames.getD frameIdx ⟨0, [], []⟩).cels.set (readU16 raw 0)
                                   ((f.frames.getD (readU16 (raw.drop 16) 0) ⟨0, [], []⟩).cels.getD
                                     (readU16 raw 0) Cel.empty) } },
            some (frameIdx, readU16 raw 0)) ∧
    (∀ raw2 : List ℕ, 18 ≤ raw2.length → raw2.take 18 = raw.take 18 →
      parseChunk2005 zlib f frameIdx raw2 = parseChunk2005 zlib f frameIdx raw) := by
  have compute : ∀ r : List ℕ, 18 ≤ r.length →
      ∀ hlr : readU16 r 0 < f.layers.length,
      (f.layers.getD (readU16 r 0) ⟨0, 0, 0, [], []⟩).flags &&& 1 ≠ 0 →
      (f.layers.getD (readU16 r 0) ⟨0, 0, 0, [], []⟩).flags &&& 64 = 0 →
      readU16 r 7 = 1 →
      ∀ hsr : readU16 (r.drop 16) 0 < f.frames.length,
      readU16 r 0 < (f.frames.getD (readU16 (r.drop 16) 0) ⟨0, [], []⟩).cels.length →
      frameIdx < f.frames.length →
      readU16 r 0 < (f.frames.getD frameIdx ⟨0, [], []⟩).cels.length →
      parseChunk2005 zlib f frameIdx r =
        some ({ f with frames := f.frames.set frameIdx
                         { f.frames.getD frameIdx ⟨0, [], []⟩ with
                           cels := (f.frames.getD frameIdx ⟨0, [], []⟩).cels.set (readU16 r 0)
                                     ((f.frames.getD (readU16 (r.drop 16) 0) ⟨0, [], []⟩).cels.getD
                                       (readU16 r 0) Cel.empty) } },
              some (frameIdx, readU16 r 0)) := by
    intro r hr hlr hvr hrr htr hsr hscr hfir hfcr
    have hframesSrc : f.frames.getD (readU16 (r.drop 16) 0) ⟨0, [], []⟩ =
        f.frames.get ⟨readU16 (r.drop 16) 0, hsr⟩ := List.getD_eq_get f.frames _ hsr
    have hframesIdx : f.frames.getD frameIdx ⟨0, [], []⟩ =
        f.frames.get ⟨frameIdx, hfir⟩ := List.getD_eq_get f.frames _ hfir
    have hscr2 : readU16 r 0 < (f.frames.get ⟨readU16 (r.drop 16) 0, hsr⟩).cels.length :=
      hframesSrc ▸ hscr
    have hfcr2 : readU16 r 0 < (f.frames.get ⟨frameIdx, hfir⟩).cels.length :=
      hframesIdx ▸ hfcr
    have hcel : (f.frames.get ⟨readU16 (r.drop 16) 0, hsr⟩).cels.getD (readU16 r 0) Cel.empty =
        (f.frames.get ⟨readU16 (r.drop 16) 0, hsr⟩).cels.get ⟨readU16 r 0, hscr2⟩ :=
      List.getD_eq_get _ _ hscr2
    have hvr2 : (f.layers.get ⟨readU16 r 0, hlr⟩).flags &&& 1 ≠ 0 := by
      rw [List.getD_eq_get f.layers _ hlr] at hvr
      exact hvr
    have hrr2 : (f.layers.get ⟨readU16 r 0, hlr⟩).flags &&& 64 = 0 := by
      rw [List.getD_eq_get f.layers _ hlr] at hrr
      exact hrr
    simp only [parseChunk2005, htr]
    rw [if_neg (by omega), dif_neg (by omega)]
    rw [if_neg (by exact hvr2)]
    rw [if_neg (by exact not_not_intro hrr2)]
    rw [if_neg (by omega)]
    rw [if_neg (by simp only [List.length_drop]; omega)]
    rw [dif_neg (by omega)]
    rw [dif_neg (by exact fun hcon => absurd hscr2 (Nat.not_lt.mpr hcon))]
    simp only [storeCel]
    rw [dif_neg (by omega)]
    rw [if_neg (by exact fun hcon => absurd hfcr2 (Nat.not_lt.mpr hcon))]
    rw [hframesIdx, hframesSrc, hcel]
    rfl
  have key : ∀ raw2 : List ℕ, 18 ≤ raw2.length → raw2.take 18 = raw.take 18 →
      parseChunk2005 zlib f frameIdx raw2 =
        some ({ f with frames := f.frames.set frameIdx
                         { f.frames.getD frameIdx ⟨0, [], []⟩ with
                           cels := (f.frames.getD frameIdx ⟨0, [], []⟩).cels.set (readU16 raw 0)
                                     ((f.frames.getD (readU16 (raw.drop 16) 0) ⟨0, [], []⟩).cels.getD
                                       (readU16 raw 0) Cel.empty) } },
              some (frameIdx, readU16 raw 0)) := by
    intro raw2 hl2 ht
    have hbyte : ∀ i, i < 18 → raw2.getD i 0 = raw.getD i 0 := by
      intro i hi
      have h1 : (raw2.take 18).getD i 0 = raw2.getD i 0 := by
        simp [List.getD_eq_getElem?_getD, List.getElem?_take, hi]
      have h2 : (raw.take 18).getD i 0 = raw.getD i 0 := by
        simp [List.getD_eq_getElem?_getD, List.getElem?_take, hi]
      rw [← h1, ← h2, ht]
    have e0 : readU16 raw2 0 = readU16 raw 0 := by
      unfold readU16
      rw [hbyte 0 (by omega), hbyte 1 (by omega)]
    have e7 : readU16 raw2 7 = 1 := by
      unfold readU16 at htyp ⊢
      rw [hbyte 7 (by omega), hbyte 8 (by omega)]
      exact htyp
    have e16 : readU16 (raw2.drop 16) 0 = readU16 (raw.drop 16) 0 := by
      unfold readU16
      simp only [List.getD_eq_getElem?_getD, List.getElem?_drop]
      simp only [← List.getD_eq_getElem?_getD]
      rw [hbyte 16 (by omega), hbyte 17 (by omega)]
    rw [compute raw2 hl2 (e0 ▸ hl) (by rw [e0]; exact hvis) (by rw [e0]; exact href) e7
      (e16 ▸ hsrc) (by rw [e0, e16]; exact hsc) hfi (by rw [e0]; exact hfc)]
    rw [e0, e16]
  exact ⟨key raw hlen rfl, fun raw2 h1 h2 => (key raw2 h1 h2).trans (key raw hlen rfl).symm⟩

theorem linked_cel_shares_source_witness :
    parseChunk2005 noZlib fileC7 1 rawC7 =
      some ({ fileC7 with frames := fileC7.frames.set 1
                              { fileC7.frames.getD 1 ⟨0, [], []⟩ with
                                cels := (fileC7.frames.getD 1 ⟨0, [], []⟩).cels.set
                                          (readU16 rawC7 0)
                                          ((fileC7.frames.getD (readU16 (rawC7.drop 16) 0)
                                              ⟨0, [], []⟩).cels.getD (readU16 rawC7 0)
                                            Cel.empty) } },
            some (1, readU16 rawC7 0)) :=
  (linked_cel_shares_source noZlib fileC7 1 rawC7 (by decide) (by decide) (by decide)
    (by decide) (by decide) (by decide) (by decide) (by decide) (by decide)).1

/-- Reading a dropped list at an offset. -/
theorem getD_drop (l : List ℕ) (k i : ℕ) : (l.drop k).getD i 0 = l.getD (k + i) 0 := by
  simp [List.getD_eq_getElem?_getD, List.getElem?_drop]

/-- Characterization of the legacy palette write loop: starting at `idx`
with `n` entries to write, it writes the entries `idx ≤ j < min (idx + n)
pal.length` from consecutive byte triples, leaves the rest unchanged, and
stops at the palette end. -/
theorem writePalOld_spec (mk : ℕ → ℕ → ℕ → GoColor) :
    ∀ (n idx : ℕ) (pal : List GoColor) (rest : List ℕ),
      3 * (min (idx + n) pal.length - idx) ≤ rest.length →
      ∃ pal2, writePalOld mk n idx pal rest =
          some (pal2, max idx (min (idx + n) pal.length),
            rest.drop (3 * (min (idx + n) pal.length - idx))) ∧
        pal2.length = pal.length ∧
        ∀ j, pal2.get? j =
          if idx ≤ j ∧ j < min (idx + n) pal.length then
            some (mk (rest.getD (3 * (j - idx)) 0) (rest.getD (3 * (j - idx) + 1) 0)
              (rest.getD (3 * (j - idx) + 2) 0))
          else pal.get? j := by
  intro n
  induction n with
  | zero =>
    intro idx pal rest _
    refine ⟨pal, ?_, rfl, ?_⟩
    · have h1 : 3 * (min (idx + 0) pal.length - idx) = 0 := by omega
      have h2 : max idx (min (idx + 0) pal.length) = idx := by omega
      rw [h1, h2]
      simp [writePalOld]
    · intro j
      rw [if_neg (by omega)]
  | succ n ih =>
    intro idx pal rest hrest
    by_cases hidx : pal.length ≤ idx
    · have h1 : 3 * (min (idx + (n + 1)) pal.length - idx) = 0 := by omega
      have h2 : max idx (min (idx + (n + 1)) pal.length) = idx := by omega
      refine ⟨pal, ?_, rfl, ?_⟩
      · rw [h1, h2]
        simp [writePalOld, hidx]
      · intro j
        rw [if_neg (by omega)]
    · push_neg at hidx
      have hmin1 : idx + 1 ≤ min (idx + (n + 1)) pal.length := by omega
      have hr3 : 3 ≤ rest.length := by omega
      obtain ⟨pal2, heq, hl2, hchar⟩ := ih (idx + 1)
        (pal.set idx (mk (rest.getD 0 0) (rest.getD 1 0) (rest.getD 2 0))) (rest.drop 3)
        (by simp only [List.length_set, List.length_drop]; omega)
      refine ⟨pal2, ?_, by rw [hl2, List.length_set], ?_⟩
      · have step : writePalOld mk (n + 1) idx pal rest =
            writePalOld mk n (idx + 1)
              (pal.set idx (mk (rest.getD 0 0) (rest.getD 1 0) (rest.getD 2 0))) (rest.drop 3) := by
          rw [writePalOld, if_neg (by omega), if_neg (by omega)]
        rw [step, heq]
        have e1 : max (idx + 1)
            (min (idx + 1 + n) (pal.set idx (mk (rest.getD 0 0) (rest.getD 1 0) (rest.getD 2 0))).length) =
            max idx (min (idx + (n + 1)) pal.length) := by
          simp only [List.length_set]
          omega
        have e2 : (rest.drop 3).drop
            (3 * (min (idx + 1 + n) (pal.set idx (mk (rest.getD 0 0) (rest.getD 1 0) (rest.getD 2 0))).length - (idx + 1))) =
            rest.drop (3 * (min (idx + (n + 1)) pal.length - idx)) := by
          rw [List.drop_drop]
          simp only [List.length_set]
          congr 1
          omega
        rw [e1, e2]
      · intro j
        rw [hchar j]
        by_cases hj : idx ≤ j ∧ j < min (idx + (n + 1)) pal.length
        · rw [if_pos hj]
          by_cases hj1 : idx + 1 ≤ j
          · rw [if_pos (by simp only [List.length_set]; omega)]
            rw [getD_drop, getD_drop, getD_drop]
            have i0 : 3 + 3 * (j - (idx + 1)) = 3 * (j - idx) := by omega
            have i1 : 3 + (3 * (j - (idx + 1)) + 1) = 3 * (j - idx) + 1 := by omega
            have i2 : 3 + (3 * (j - (idx + 1)) + 2) = 3 * (j - idx) + 2 := by omega
            rw [i0, i1, i2]
          · have hj2 : j = idx := by omega
            subst hj2
            rw [if_neg (by rintro ⟨hc1, hc2⟩; omega)]
            rw [List.get?_set_eq_of_lt _ hidx]
            have i0 : 3 * (j - j) = 0 := by omega
            rw [i0]
        · rw [if_neg hj]
          have hne : idx ≠ j := by omega
          rw [if_neg (by simp only [List.length_set]; rintro ⟨hc1, hc2⟩; omega)]
          exact List.get?_set_ne _ _ hne

/-- C9: applying legacy palette chunk 0x0011 with a single packet that
skips `s` entries and sets `m` entries (a count of 0 meaning 256
consecutive entries, capped at the palette end) writes each entry with R,
G, B equal to 4 times the corresponding 6-bit source byte and full alpha,
leaving every other entry unchanged. -/
theorem parseChunk0011_packet_spec (pal : List GoColor) (s m : ℕ) (triples : List ℕ)
    (_hs : s ≤ 255) (_hm : m ≤ 255)
    (h6 : ∀ b ∈ triples, b < 64)
    (hlen : 3 * (min (s + (if m = 0 then 256 else m)) pal.length - s) ≤ triples.length) :
    ∃ pal2, parseChunk0011 pal ([1, 0, s, m] ++ triples) = some pal2 ∧
      pal2.length = pal.length ∧
      ∀ j, pal2.get? j =
        if s ≤ j ∧ j < min (s + (if m = 0 then 256 else m)) pal.length then
          some (.nrgba (4 * triples.getD (3 * (j - s)) 0) (4 * triples.getD (3 * (j - s) + 1) 0)
            (4 * triples.getD (3 * (j - s) + 2) 0) 255)
        else pal.get? j := by
  obtain ⟨pal2, heq, hl2, hchar⟩ :=
    writePalOld_spec mkColor0011 (if m = 0 then 256 else m) s pal triples hlen
  have hget : ∀ i, i < triples.length → triples.getD i 0 < 64 := by
    intro i hi
    rw [List.getD_eq_get triples 0 hi]
    exact h6 _ (triples.get_mem _ _)
  refine ⟨pal2, ?_, hl2, ?_⟩
  · show parseChunk0011 pal ([1, 0, s, m] ++ triples) = some pal2
    have hu : parseChunk0011 pal ([1, 0, s, m] ++ triples) =
        palPackets mkColor0011 1 0 pal (s :: m :: triples) := by
      unfold parseChunk0011
      rw [if_neg (by simp)]
      rfl
    rw [hu]
    have hu2 : palPackets mkColor0011 1 0 pal (s :: m :: triples) =
        if (s :: m :: triples).length < 2 then none
        else (writePalOld mkColor0011 (if m = 0 then 256 else m) (0 + s) pal triples).bind
          (fun x => palPackets mkColor0011 0 x.2.1 x.1 x.2.2) := rfl
    rw [hu2, if_neg (by simp), Nat.zero_add, heq]
    rfl
  · intro j
    rw [hchar j]
    by_cases hcond : s ≤ j ∧ j < min (s + (if m = 0 then 256 else m)) pal.length
    · rw [if_pos hcond, if_pos hcond]
      have hidx : 3 * (j - s) + 2 < triples.length := by omega
      have e0 := hget (3 * (j - s)) (by omega)
      have e1 := hget (3 * (j - s) + 1) (by omega)
      have e2 := hget (3 * (j - s) + 2) (by omega)
      simp only [mkColor0011]
      rw [Nat.mod_eq_of_lt (by omega), Nat.mod_eq_of_lt (by omega),
        Nat.mod_eq_of_lt (by omega), Nat.mul_comm (triples.getD (3 * (j - s)) 0) 4,
        Nat.mul_comm (triples.getD (3 * (j - s) + 1) 0) 4,
        Nat.mul_comm (triples.getD (3 * (j - s) + 2) 0) 4]
    · rw [if_neg hcond, if_neg hcond]

theorem parseChunk0011_packet_spec_witness :
    ∃ pal2, parseChunk0011 palC9 rawC9 = some pal2 ∧
      pal2.length = palC9.length ∧
      ∀ j, pal2.get? j =
        if 1 ≤ j ∧ j < min (1 + (if 0 = 0 then 256 else 0)) palC9.length then
          some (.nrgba (4 * [1, 2, 3, 4, 5, 6].getD (3 * (j - 1)) 0)
            (4 * [1, 2, 3, 4, 5, 6].getD (3 * (j - 1) + 1) 0)
            (4 * [1, 2, 3, 4, 5, 6].getD (3 * (j - 1) + 2) 0) 255)
        else palC9.get? j :=
  parseChunk0011_packet_spec palC9 1 0 [1, 2, 3, 4, 5, 6] (by decide) (by decide)
    (by decide) (by decide)

/-- C2 counterexample: a successfully decoded container with header flags 0
whose new-format palette chunk overwrites the transparent-index entry with
opaque red; after `initPalette` the entry is not transparent. -/
theorem initPalette_claim_false :
    (decodeAtlasConfig noZlib inputPal2019).isSome = true ∧
    ((fileReadFrom inputPal2019).bind initPalette).map
      (fun f2 => f2.palette.getD 0 .black) = some (.nrgba 255 0 0 255) ∧
    (GoColor.nrgba 255 0 0 255).rgba.a ≠ 0 := by decide

/-- C2 amended: when the header transparent flag (bit 0) is set, the
palette entry at the transparent index is fully transparent after
`initPalette`, no matter which palette-chunk path supplied color data; with
the flag clear a palette chunk may leave it opaque. -/
theorem initPalette_transparent_forced (f f2 : FileRec)
    (h : initPalette f = some f2) (hflag : f.flags &&& 1 ≠ 0) :
    (f2.palette.getD f.transparent .black).rgba = ⟨0, 0, 0, 0⟩ := by
  unfold initPalette at h
  split at h
  · exact absurd h (by simp)
  · obtain ⟨pal1, hpal1, h⟩ := Option.bind_eq_some.mp h
    rw [if_pos hflag] at h
    by_cases ht : f.transparent < pal1.length
    · rw [if_pos ht] at h
      cases h
      rw [List.getD_eq_getElem?_getD, List.getElem?_set_eq_of_lt _ (by simpa using ht)]
      rfl
    · rw [if_neg ht] at h
      exact absurd h (by simp)

theorem initPalette_transparent_forced_witness :
    initPalette fileC2w = some ⟨1, 1, 1, 8, 0, [.transparent], [⟨0, [], []⟩], [], 0⟩ ∧
    ((FileRec.mk 1 1 1 8 0 [.transparent] [⟨0, [], []⟩] [] 0).palette.getD
      fileC2w.transparent .black).rgba = ⟨0, 0, 0, 0⟩ :=
  ⟨by decide, initPalette_transparent_forced fileC2w _ (by decide) (by decide)⟩

/-- C3: the code stores the pixel bytes of an 8-bit cel unchanged even when
a pixel value is out of range for the palette (here 200 against a 5-entry
palette), and the composite-time palette read for that pixel falls outside
the palette table; no remap to the transparent index exists in the code,
although the test suite expects the fixture exercising this to decode. -/
theorem makeCelImage8_no_remap :
    fileC3.palette.length = 5 ∧
    (makeCelImage8 fileC3 0 (mkRect 0 0 1 1) 255 [200]).image =
      CelImage.paletted 0 (mkRect 0 0 1 1) [200] fileC3.palette ∧
    palettedAt (makeCelImage8 fileC3 0 (mkRect 0 0 1 1) 255 [200]).image 0 = none := by
  decide

/-- C10: the header-only probe depends only on the first 14 input bytes;
it succeeds for every input of at least 14 bytes whose magic matches
(declared frame count at least 1, mirroring the domain of the power-of-two
factorization), returning the atlas dimensions computed from the header
fields with no validation of color depth or pixel aspect; while the full
container read rejects a non-square aspect or a depth outside 8, 16, 32. -/
theorem decodeConfig_header_only :
    (∀ xs ys : List ℕ, xs.length = 14 → decodeConfig (xs ++ ys) = decodeConfig xs) ∧
    (∀ input : List ℕ, 14 ≤ input.length → readU16 input 4 = 0xA5E0 →
      1 ≤ readU16 input 6 →
      decodeConfig input = some
        ⟨(if readU16 input 12 = 16 then ColorModelTag.gray16 else ColorModelTag.rgba),
         readU16 input 8 *
           (if readU16 input 8 > readU16 input 10 then (factorPowerOfTwo (readU16 input 6)).2
            else (factorPowerOfTwo (readU16 input 6)).1),
         readU16 input 10 *
           (if readU16 input 8 > readU16 input 10 then (factorPowerOfTwo (readU16 input 6)).1
            else (factorPowerOfTwo (readU16 input 6)).2)⟩) ∧
    (∀ input : List ℕ, 128 ≤ input.length → readU16 input 4 = 0xA5E0 →
      (input.getD 34 0 ≠ input.getD 35 0 ∨
        (readU16 input 12 ≠ 8 ∧ readU16 input 12 ≠ 16 ∧ readU16 input 12 ≠ 32)) →
      fileReadFrom input = none) := by
  refine ⟨?_, ?_, ?_⟩
  · intro xs ys hxs
    have e : ∀ k, k + 1 < 14 → readU16 (xs ++ ys) k = readU16 xs k := by
      intro k hk
      unfold readU16
      rw [List.getD_append xs ys 0 k (by omega), List.getD_append xs ys 0 (k + 1) (by omega)]
    have h1 : ¬ ((xs ++ ys).length < 14) := by rw [List.length_append, hxs]; omega
    have h2 : ¬ (xs.length < 14) := by omega
    unfold decodeConfig
    rw [e 4 (by omega), e 6 (by omega), e 8 (by omega), e 10 (by omega), e 12 (by omega),
      if_neg h1, if_neg h2]
  · intro input h14 hmagic hframes
    unfold decodeConfig
    rw [if_neg (by omega), if_neg (not_not_intro hmagic)]
  · intro input h128 hmagic hbad
    unfold fileReadFrom
    rw [if_neg (by omega), if_neg (not_not_intro hmagic)]
    by_cases hasp : input.getD 34 0 ≠ input.getD 35 0
    · rw [if_pos hasp]
    · rw [if_neg hasp]
      rcases hbad with hbad | hbad
      · exact absurd hbad hasp
      · rw [if_pos hbad]

theorem decodeConfig_header_only_witness :
    (decodeConfig inputBadDepth).isSome = true ∧ fileReadFrom inputBadDepth = none :=
  ⟨by rw [decodeConfig_header_only.2.1 inputBadDepth (by decide) (by decide) (by decide)]; rfl,
   decodeConfig_header_only.2.2 inputBadDepth (by decide) (by decide)
     (Or.inr ⟨by decide, by decide, by decide⟩)⟩

/-- `storeCel` changes nothing but one cel slot: the header fields, the
palette and the frame count survive. -/
theorem storeCel_shape (f f2 : FileRec) (i l : ℕ) (c : Cel)
    (h : storeCel f i l c = some f2) :
    f2.framew = f.framew ∧ f2.frameh = f.frameh ∧ f2.bpp = f.bpp ∧
    f2.palette = f.palette ∧ f2.frames.length = f.frames.length := by
  unfold storeCel at h
  split at h
  · exact absurd h (by simp)
  · dsimp only [] at h
    split at h
    · exact absurd h (by simp)
    · cases h
      exact ⟨rfl, rfl, rfl, rfl, by simp⟩

/-- `setCelData` changes nothing but one cel slot. -/
theorem setCelData_shape (f f2 : FileRec) (i l : ℕ) (d : List ℕ)
    (h : setCelData f i l d = some f2) :
    f2.framew = f.framew ∧ f2.frameh = f.frameh ∧ f2.bpp = f.bpp ∧
    f2.palette = f.palette ∧ f2.frames.length = f.frames.length := by
  unfold setCelData at h
  split at h
  · exact absurd h (by simp)
  · dsimp only [] at h
    split at h
    · exact absurd h (by simp)
    · cases h
      exact ⟨rfl, rfl, rfl, rfl, by simp⟩

/-- `parseChunk2005` only writes cel slots and the allocation counter. -/
theorem parseChunk2005_shape (zlib : List ℕ → Option (List ℕ)) (f : FileRec)
    (i : ℕ) (raw : List ℕ) (fs : FileRec × Option (ℕ × ℕ))
    (h : parseChunk2005 zlib f i raw = some fs) :
    fs.1.framew = f.framew ∧ fs.1.frameh = f.frameh ∧ fs.1.bpp = f.bpp ∧
    fs.1.palette = f.palette ∧ fs.1.frames.length = f.frames.length := by
  unfold parseChunk2005 at h
  split at h
  · exact absurd h (by simp)
  · dsimp only [] at h
    split at h
    · exact absurd h (by simp)
    · split at h
      · cases h
        exact ⟨rfl, rfl, rfl, rfl, rfl⟩
      · split at h
        · cases h
          exact ⟨rfl, rfl, rfl, rfl, rfl⟩
        · split at h
          · exact absurd h (by simp)
          · split at h
            · split at h
              · exact absurd h (by simp)
              · obtain ⟨f3, hst, h⟩ := Option.bind_eq_some.mp h
                cases h
                have hsh := storeCel_shape _ _ _ _ _ hst
                exact hsh
            · split at h
              · exact absurd h (by simp)
              · split at h
                · exact absurd h (by simp)
                · split at h
                  · exact absurd h (by simp)
                  · obtain ⟨f3, hst, h⟩ := Option.bind_eq_some.mp h
                    cases h
                    have hsh := storeCel_shape _ _ _ _ _ hst
                    exact hsh
            · split at h
              · exact absurd h (by simp)
              · obtain ⟨pix, hz, h⟩ := Option.bind_eq_some.mp h
                obtain ⟨f3, hst, h⟩ := Option.bind_eq_some.mp h
                cases h
                have hsh := storeCel_shape _ _ _ _ _ hst
                exact hsh
            · exact absurd h (by simp)

/-- The cel chunk loop preserves header fields, palette and frame count. -/
theorem initCelsChunks_shape (zlib : List ℕ → Option (List ℕ)) (i : ℕ) :
    ∀ (chunks : List Chunk) (f f2 : FileRec),
      initCelsChunks zlib f i chunks = some f2 →
      f2.framew = f.framew ∧ f2.frameh = f.frameh ∧ f2.bpp = f.bpp ∧
      f2.palette = f.palette ∧ f2.frames.length = f.frames.length := by
  intro chunks
  induction chunks with
  | nil =>
    intro f f2 h
    cases h
    exact ⟨rfl, rfl, rfl, rfl, rfl⟩
  | cons ch rest ih =>
    intro f f2 h
    unfold initCelsChunks at h
    split at h
    · obtain ⟨fs, hp, h⟩ := Option.bind_eq_some.mp h
      obtain ⟨f3, hmid, h⟩ := Option.bind_eq_some.mp h
      obtain ⟨p1, p2, p3, p4, p5⟩ := parseChunk2005_shape zlib f i ch.raw fs hp
      have hmid_shape : f3.framew = fs.1.framew ∧ f3.frameh = fs.1.frameh ∧
          f3.bpp = fs.1.bpp ∧ f3.palette = fs.1.palette ∧
          f3.frames.length = fs.1.frames.length := by
        split at hmid
        · split at hmid
          · obtain ⟨du, hdu, hmid⟩ := Option.bind_eq_some.mp hmid
            exact setCelData_shape _ _ _ _ _ hmid
          · cases hmid
            exact ⟨rfl, rfl, rfl, rfl, rfl⟩
        · cases hmid
          exact ⟨rfl, rfl, rfl, rfl, rfl⟩
      obtain ⟨m1, m2, m3, m4, m5⟩ := hmid_shape
      obtain ⟨r1, r2, r3, r4, r5⟩ := ih f3 f2 h
      exact ⟨by rw [r1, m1, p1], by rw [r2, m2, p2], by rw [r3, m3, p3],
        by rw [r4, m4, p4], by rw [r5, m5, p5]⟩
    · exact ih f f2 h

/-- The cel frame loop preserves header fields, palette and frame count. -/
theorem initCelsFrames_shape (zlib : List ℕ → Option (List ℕ)) :
    ∀ (k i : ℕ) (f f2 : FileRec), initCelsFrames zlib i k f = some f2 →
      f2.framew = f.framew ∧ f2.frameh = f.frameh ∧ f2.bpp = f.bpp ∧
      f2.palette = f.palette ∧ f2.frames.length = f.frames.length := by
  intro k
  induction k with
  | zero =>
    intro i f f2 h
    cases h
    exact ⟨rfl, rfl, rfl, rfl, rfl⟩
  | succ k ih =>
    intro i f f2 h
    unfold initCelsFrames at h
    obtain ⟨f3, hc, h⟩ := Option.bind_eq_some.mp h
    obtain ⟨c1, c2, c3, c4, c5⟩ := initCelsChunks_shape zlib i _ f f3 hc
    obtain ⟨r1, r2, r3, r4, r5⟩ := ih (i + 1) f3 f2 h
    exact ⟨by rw [r1, c1], by rw [r2, c2], by rw [r3, c3], by rw [r4, c4], by rw [r5, c5]⟩

/-- `initCels` preserves header fields, palette and frame count. -/
theorem initCels_shape (zlib : List ℕ → Option (List ℕ)) (f f2 : FileRec)
    (h : initCels zlib f = some f2) :
    f2.framew = f.framew ∧ f2.frameh = f.frameh ∧ f2.bpp = f.bpp ∧
    f2.palette = f.palette ∧ f2.frames.length = f.frames.length :=
  initCelsFrames_shape zlib f.frames.length 0 f f2 h

/-- `initPalette` only replaces the palette. -/
theorem initPalette_shape (f f2 : FileRec) (h : initPalette f = some f2) :
    f2.framew = f.framew ∧ f2.frameh = f.frameh ∧ f2.bpp = f.bpp ∧
    f2.frames = f.frames := by
  unfold initPalette at h
  split at h
  · exact absurd h (by simp)
  · obtain ⟨pal, hpal, h⟩ := Option.bind_eq_some.mp h
    split at h
    · split at h
      · cases h
        exact ⟨rfl, rfl, rfl, rfl⟩
      · exact absurd h (by simp)
    · cases h
      exact ⟨rfl, rfl, rfl, rfl⟩

/-- `initLayers` replaces the layer table and resizes cel lists, keeping
header fields, palette and frame count. -/
theorem initLayers_shape (f f2 : FileRec) (h : initLayers f = some f2) :
    f2.framew = f.framew ∧ f2.frameh = f.frameh ∧ f2.bpp = f.bpp ∧
    f2.palette = f.palette ∧ f2.frames.length = f.frames.length := by
  unfold initLayers at h
  split at h
  · exact absurd h (by simp)
  · obtain ⟨ls, hls, h⟩ := Option.bind_eq_some.mp h
    cases h
    exact ⟨rfl, rfl, rfl, rfl, by simp⟩

/-- Success of `fileReadFrom` determines the header fields of the result
from the input bytes. -/
theorem fileReadFrom_fields (input : List ℕ) (f : FileRec)
    (h : fileReadFrom input = some f) :
    128 ≤ input.length ∧ readU16 input 4 = 0xA5E0 ∧
    f.framew = readU16 input 8 ∧ f.frameh = readU16 input 10 ∧
    f.bpp = readU16 input 12 := by
  unfold fileReadFrom at h
  split at h
  · exact absurd h (by simp)
  · split at h
    · exact absurd h (by simp)
    · split at h
      · exact absurd h (by simp)
      · dsimp only [] at h
        split at h
        · exact absurd h (by simp)
        · split at h
          · exact absurd h (by simp)
          · split at h
            · exact absurd h (by simp)
            · split at h
              · exact absurd h (by simp)
              · obtain ⟨frames, hfr, h⟩ := Option.bind_eq_some.mp h
                cases h
                refine ⟨by omega, ?_, rfl, rfl, rfl⟩
                rename_i hlen hmag _ _ _ _ _
                exact not_not.mp hmag

/-- C1 amended: when the header probe and the full decode both succeed on
the same input, they agree on the atlas width and height provided the
number of frame records parsed from the body equals the header's declared
frame count, and they agree on the color model when the color depth is 16
or 32; for 8-bit inputs the probe reports the RGBA model while the decoded
atlas is paletted, and a body frame count differing from the declared
count changes the decoded atlas dimensions but not the probed ones. -/
theorem probe_decode_agree (zlib : List ℕ → Option (List ℕ)) (input : List ℕ)
    (f : FileRec) (c1 c2 : ImageConfig)
    (hf : fileReadFrom input = some f)
    (hcount : f.frames.length = readU16 input 6)
    (hprobe : decodeConfig input = some c1)
    (hfull : decodeAtlasConfig zlib input = some c2) :
    c1.width = c2.width ∧ c1.height = c2.height ∧
    ((f.bpp = 16 ∨ f.bpp = 32) → c1.model = c2.model) := by
  obtain ⟨h128, hmagic, hw, hh, hbpp⟩ := fileReadFrom_fields input f hf
  unfold decodeAtlasConfig at hfull
  rw [hf, Option.some_bind] at hfull
  obtain ⟨f1, hp, hfull⟩ := Option.bind_eq_some.mp hfull
  obtain ⟨fl, hlay, hfull⟩ := Option.bind_eq_some.mp hfull
  obtain ⟨f3, hcel, hfull⟩ := Option.bind_eq_some.mp hfull
  cases hfull
  obtain ⟨p1, p2, p3, p4⟩ := initPalette_shape f f1 hp
  obtain ⟨l1, l2, l3, _, l5⟩ := initLayers_shape f1 fl hlay
  obtain ⟨q1, q2, q3, _, q5⟩ := initCels_shape zlib fl f3 hcel
  have ew : f3.framew = readU16 input 8 := by rw [q1, l1, p1, hw]
  have eh : f3.frameh = readU16 input 10 := by rw [q2, l2, p2, hh]
  have eb : f3.bpp = f.bpp := by rw [q3, l3, p3]
  have el : f3.frames.length = readU16 input 6 := by
    rw [q5, l5, p4]
    exact hcount
  unfold decodeConfig at hprobe
  rw [if_neg (by omega), if_neg (not_not_intro hmagic)] at hprobe
  cases hprobe
  refine ⟨?_, ?_, ?_⟩
  · show readU16 input 8 * _ = (makeAtlasFrames f3.frames.length f3.framew f3.frameh).1.maxX
    rw [ew, eh, el]
    simp only [makeAtlasFrames, mkRect]
    exact Nat.mul_comm _ _
  · show readU16 input 10 * _ = (makeAtlasFrames f3.frames.length f3.framew f3.frameh).1.maxY
    rw [ew, eh, el]
    simp only [makeAtlasFrames, mkRect]
    exact Nat.mul_comm _ _
  · intro hbv
    show (if readU16 input 12 = 16 then ColorModelTag.gray16 else ColorModelTag.rgba) = _
    rcases hbv with hbv | hbv
    · rw [hbpp] at hbv
      rw [if_pos hbv, eb, hbpp, hbv]
    · rw [hbpp] at hbv
      rw [if_neg (by omega), eb, hbpp, hbv]

theorem probe_decode_agree_witness :
    decodeConfig inputAgree = some ⟨.rgba, 2, 1⟩ ∧
    decodeAtlasConfig noZlib inputAgree = some ⟨.rgba, 2, 1⟩ ∧
    ((ImageConfig.mk .rgba 2 1).width = (ImageConfig.mk .rgba 2 1).width ∧
     (ImageConfig.mk .rgba 2 1).height = (ImageConfig.mk .rgba 2 1).height ∧
     ((fileAgree.bpp = 16 ∨ fileAgree.bpp = 32) →
       (ImageConfig.mk .rgba 2 1).model = (ImageConfig.mk .rgba 2 1).model)) :=
  ⟨by decide, by decide,
   probe_decode_agree noZlib inputAgree fileAgree ⟨.rgba, 2, 1⟩ ⟨.rgba, 2, 1⟩
     (by decide) (by decide) (by decide) (by decide)⟩

/-- C1 counterexample: an 8-bit container whose header declares 2 frames
while the body holds 1. Both the probe and the full decode succeed, yet
the probe reports a 2 by 2 RGBA-model atlas while the decode builds a
2 by 1 paletted atlas: height and color model both disagree. -/
theorem probe_decode_agree_claim_false :
    decodeConfig inputMismatch = some ⟨.rgba, 2, 2⟩ ∧
    decodeAtlasConfig noZlib inputMismatch = some ⟨.palette [.transparent], 2, 1⟩ ∧
    ((2 : ℕ) ≠ 1 ∧ ColorModelTag.rgba ≠ .palette [.transparent]) := by decide
